import Mathlib

/-!
Shallow embedding of the DiscordTrelloWatch bot (`src/main.py`): the watch
registry, the interval configuration, the poll-cycle scheduler
(`check_trello_activity`) and the command handlers (`watch_board`,
`reset_bot`, `set_refresh_interval`, `list_boards`).

Modelling conventions:
* Python `float` seconds/timestamps are modelled as `Rat` (no rounding
  claims are made about floats).
* The dict `channels : dict[int, set[tuple[str, str]]]` is modelled as an
  association list `List (Int × List (String × String))`; Python set `add`
  is insertion without duplication; dict enumeration order is the list
  order.
* An HTTP activity fetch is an oracle `Int → String → Option (List
  ActivityRecord)`; `none` models a non-200 response, `some acts` models a
  200 response whose parsed JSON yields the given records.
* Outbound Discord messages are modelled by the inductive `Msg`, keeping
  the channel and the varying content (window start, card URL); the fixed
  English text of the messages is not modelled.
-/

set_option maxRecDepth 20000

/-- One Trello action as consumed by the poll loop (`main.py` lines 86-92):
`card_id` is `action['data']['card']['shortLink']` and `occurred_at` the
parsed `action['date']`, as seconds on the rational time line. -/
structure ActivityRecord where
  card_id : String
  occurred_at : Rat
deriving DecidableEq, Repr

/-- The bot's global mutable state, `Config` of `main.py` lines 49-53. -/
structure Config where
  refresh_interval : Rat
  prev_refresh_interval : Rat
  channels : List (Int × List (String × String))
deriving DecidableEq, Repr

/-- The initial state `Config(3600, 3600, dict())` built at process start
(`main.py` line 241). -/
def Config.init : Config := ⟨3600, 3600, []⟩

/-- Line 91: an action qualifies when
`datetime.utcnow() - action_time <= timedelta(seconds=prev_refresh_interval)`. -/
def qualifies (now prev : Rat) (a : ActivityRecord) : Bool :=
  now - a.occurred_at ≤ prev

/-- Line 92: the card URL added to the per-board `cards` set. -/
def cardUrl (shortLink : String) : String :=
  "https://trello.com/c/" ++ shortLink

/-- The per-board `cards` set (lines 72, 86-92): URLs of qualifying
actions, with duplicates collapsed (Python `set`), as a duplicate-free
list. -/
def boardCards (now prev : Rat) (acts : List ActivityRecord) : List String :=
  ((acts.filter (fun a => qualifies now prev a)).map (fun a => cardUrl a.card_id)).dedup

/-- An outbound Discord message of the poll loop: the header
`"New/Updated Cards since ..."` (lines 95-97, carrying the window start
`now - prev_refresh_interval`) or a single card-URL message (line 102). -/
inductive Msg where
  | header (channel : Int) (windowStart : Rat) : Msg
  | card (channel : Int) (url : String) : Msg
deriving DecidableEq, Repr

/-- Messages sent for one board (lines 94-103): nothing when `cards` is
empty, otherwise the header followed by one message per card. -/
def boardMsgs (ch : Int) (now prev : Rat) (acts : List ActivityRecord) : List Msg :=
  let cards := boardCards now prev acts
  if cards.isEmpty then [] else Msg.header ch (now - prev) :: cards.map (Msg.card ch)

/-- The inner `for board in list_of_boards` loop (lines 71-103) for one
channel, threading `drift_time`. A `none` fetch result models
`resp.status != 200`, on which line 84 executes `break`: the remaining
boards of this channel are not visited. When `cards` is non-empty, line 99
overwrites `drift_time` with `len(cards) + 1`. -/
def runBoards (ch : Int) (now prev : Rat) (fetch : String → Option (List ActivityRecord)) :
    List (String × String) → Nat → List Msg × Nat
  | [], drift => ([], drift)
  | b :: rest, drift =>
    match fetch b.2 with
    | none => ([], drift)
    | some acts =>
      let cards := boardCards now prev acts
      let drift2 := if cards.isEmpty then drift else cards.length + 1
      let out := runBoards ch now prev fetch rest drift2
      (boardMsgs ch now prev acts ++ out.1, out.2)

/-- The outer `for channel, list_of_boards in bot_config.channels.items()`
loop (line 69), threading `drift_time` across channels. -/
def runChannels (now prev : Rat) (fetch : Int → String → Option (List ActivityRecord)) :
    List (Int × List (String × String)) → Nat → List Msg × Nat
  | [], drift => ([], drift)
  | (ch, bs) :: rest, drift =>
    let o1 := runBoards ch now prev (fetch ch) bs drift
    let o2 := runChannels now prev fetch rest o1.2
    (o1.1 ++ o2.1, o2.2)

/-- Observable output of one poll cycle: the messages sent, the final
`drift_time`, and the duration handed to `asyncio.sleep` on line 108 —
`refresh_interval - drift_time`, with no clamping in the source. -/
structure CycleOut where
  messages : List Msg
  drift : Nat
  sleep : Rat
deriving DecidableEq, Repr

/-- One iteration of the `while True` loop of `check_trello_activity`
(lines 67-108): reset `drift_time` to 0, walk all channels and boards using
`prev_refresh_interval` for the window, then commit
`prev_refresh_interval := refresh_interval` (line 105) and compute the
sleep duration `refresh_interval - drift_time` (line 108). -/
def check_trello_activity_cycle (cfg : Config) (now : Rat)
    (fetch : Int → String → Option (List ActivityRecord)) : CycleOut × Config :=
  let o := runChannels now cfg.prev_refresh_interval fetch cfg.channels 0
  (⟨o.1, o.2, cfg.refresh_interval - (o.2 : Rat)⟩,
   { cfg with prev_refresh_interval := cfg.refresh_interval })

/-- Modelled from the documented semantics of the external `asyncio.sleep`
collaborator: a non-positive delay suspends for zero time. -/
def asyncio_sleep_duration (x : Rat) : Rat := max x 0

/-- `reset_bot` (lines 161-173): sets `refresh_interval := 3600` and
`channels := dict()`. It does not touch `prev_refresh_interval`. -/
def reset_bot (cfg : Config) : Config :=
  { cfg with refresh_interval := 3600, channels := [] }

/-- `set_refresh_interval` (lines 178-189): stores `minutes * 60` into
`refresh_interval` only. -/
def set_refresh_interval (cfg : Config) (minutes : Rat) : Config :=
  { cfg with refresh_interval := minutes * 60 }

/-- The `all_boards = True` branch of `list_boards` (lines 143-150), with
the message-formatting stripped to its data: each watched channel with the
display names of its boards. -/
def list_boards_all (cfg : Config) : List (Int × List String) :=
  cfg.channels.map (fun p => (p.1, p.2.map (fun b => b.1)))

/-- Python `str.lower()` as used on line 211 (characterwise lowering; the
URLs compared are ASCII). -/
def pyLower (s : String) : String :=
  String.mk (s.data.map Char.toLower)

/-- Helper for the greedy part of the regex `b/(.*)/`: on the character
list after a matched `b/`, return the text strictly before the LAST `/`
of the list, or `none` when the list has no `/`. This is what the greedy
`(.*)` followed by `/` captures. -/
def grab : List Char → Option (List Char)
  | [] => none
  | c :: rest =>
    match grab rest with
    | some cap => some (c :: cap)
    | none => if c = '/' then some [] else none

/-- `re.search(r"b/(.*)/", s)` on a character list: scan left to right for
a position starting with `b/`; there, the greedy `(.*)` (which cannot cross
a newline) must reach a later `/`, and captures up to the last such `/`;
if no closing `/` exists the scan resumes one character further. -/
def searchBoardId : List Char → Option (List Char)
  | [] => none
  | c :: rest =>
    if c = 'b' ∧ rest.head? = some '/' then
      match grab (rest.tail.takeWhile (fun ch => ch ≠ '\n')) with
      | some cap => some cap
      | none => searchBoardId rest
    else searchBoardId rest

/-- The board-id extraction `re.search(r"b/(.*)/", board_url).group(1)`
used by `watch_board` (line 205/216) and the poll loop (line 73); `none`
when the regex finds no match. -/
def extractBoardId (board_url : String) : Option String :=
  (searchBoardId board_url.data).map String.mk

/-- The duplicate scan of `watch_board` (lines 209-214): first channel, in
registry enumeration order, holding a board whose URL equals `board_url`
case-insensitively. -/
def findDup (chs : List (Int × List (String × String))) (board_url : String) : Option Int :=
  match chs with
  | [] => none
  | (ch, bs) :: rest =>
    if bs.any (fun b => pyLower b.2 = pyLower board_url) then some ch
    else findDup rest board_url

/-- `bot_config.channels.get(ch)` on the association-list model. -/
def lookupChannel (chs : List (Int × List (String × String))) (ch : Int) :
    Option (List (String × String)) :=
  match chs with
  | [] => none
  | (c, bs) :: rest => if c = ch then some bs else lookupChannel rest ch

/-- Replace the watch set stored under an existing channel key. -/
def updateChannel (chs : List (Int × List (String × String))) (ch : Int)
    (bs' : List (String × String)) : List (Int × List (String × String)) :=
  match chs with
  | [] => []
  | (c, bs) :: rest =>
    if c = ch then (c, bs') :: rest else (c, bs) :: updateChannel rest ch bs'

/-- Python `set.add` on the list model of a watch set. -/
def addBoard (bs : List (String × String)) (b : String × String) :
    List (String × String) :=
  if b ∈ bs then bs else bs ++ [b]

/-- Lines 224-227: `if boards := bot_config.channels.get(ctx.channel_id):
boards.add(board)` else create a fresh singleton entry (also when the
stored set is empty, since an empty set is falsy). -/
def insertBoard (chs : List (Int × List (String × String))) (ch : Int)
    (b : String × String) : List (Int × List (String × String)) :=
  match lookupChannel chs ch with
  | some bs => if bs.isEmpty then updateChannel chs ch [b] else updateChannel chs ch (addBoard bs b)
  | none => chs ++ [(ch, [b])]

/-- The response of `watch_board`: "Incorrect Board URL" (line 206),
"Board is already being watched in channel #..." (line 213), the verbatim
traceback of a failed `get_board` lookup (line 221), or the success
response (line 230). -/
inductive WatchResult where
  | invalidUrl : WatchResult
  | alreadyWatched (channel : Int) : WatchResult
  | lookupFailed (err : String) : WatchResult
  | added (name url : String) : WatchResult
deriving DecidableEq, Repr

/-- `watch_board` (lines 194-230). `lookup` is the external `get_board`
collaborator: applied to the extracted board id, it returns the board name
(`Except.ok`) or raises `aiohttp.ClientResponseError`, modelled as
`Except.error` carrying the `format_exc()` text surfaced on line 221. -/
def watch_board (cfg : Config) (ch : Int) (board_url : String)
    (lookup : String → Except String String) : WatchResult × Config :=
  match extractBoardId board_url with
  | none => (.invalidUrl, cfg)
  | some board_id =>
    match findDup cfg.channels board_url with
    | some owner => (.alreadyWatched owner, cfg)
    | none =>
      match lookup board_id with
      | .error e => (.lookupFailed e, cfg)
      | .ok name =>
        (.added name board_url,
         { cfg with channels := insertBoard cfg.channels ch (name, board_url) })

/-- The operations that mutate the bot state, as a reachability relation
from the start-up state: the command handlers (`watch_board`, `reset_bot`,
`set_refresh_interval`) and one full poll-cycle iteration. -/
inductive Reachable : Config → Prop
  | init : Reachable Config.init
  | watch (cfg : Config) (ch : Int) (url : String) (lookup : String → Except String String) :
      Reachable cfg → Reachable (watch_board cfg ch url lookup).2
  | reset (cfg : Config) : Reachable cfg → Reachable (reset_bot cfg)
  | setInterval (cfg : Config) (m : Rat) : Reachable cfg → Reachable (set_refresh_interval cfg m)
  | cycle (cfg : Config) (now : Rat) (fetch : Int → String → Option (List ActivityRecord)) :
      Reachable cfg → Reachable (check_trello_activity_cycle cfg now fetch).2

/-- The registry invariant claimed by the spec: a channel key exists only
together with a non-empty watch set. -/
def registryInvariant (cfg : Config) : Prop :=
  ∀ p ∈ cfg.channels, p.2 ≠ []

/-- Number of messages one visited board contributes to its channel:
0 when the board's qualifying-card set is empty, otherwise the header plus
one message per card. -/
def boardMsgCount (now prev : Rat) (fetch : String → Option (List ActivityRecord))
    (b : String × String) : Nat :=
  match fetch b.2 with
  | none => 0
  | some acts =>
    let cards := boardCards now prev acts
    if cards.isEmpty then 0 else cards.length + 1

/-- Per-channel message counts of the boards the loop actually visits: the
`break` on a non-200 response means only the prefix of boards before the
first failing fetch is processed. -/
def channelCounts (now prev : Rat) (fetch : String → Option (List ActivityRecord))
    (bs : List (String × String)) : List Nat :=
  (bs.takeWhile (fun b => (fetch b.2).isSome)).map (boardMsgCount now prev fetch)

/-- All per-board message counts of one cycle, in iteration order across
channels. -/
def cycleCounts (now prev : Rat) (fetch : Int → String → Option (List ActivityRecord))
    (chs : List (Int × List (String × String))) : List Nat :=
  (chs.map (fun p => channelCounts now prev (fetch p.1) p.2)).flatten

/-- The fold corresponding to the repeated `drift_time = len(cards) + 1`
assignment: each non-zero per-board count overwrites the accumulator. -/
def overwriteFold (l : List Nat) (d : Nat) : Nat :=
  l.foldl (fun acc c => if c = 0 then acc else c) d

/-- `true` when a character list contains no occurrence of the two-letter
pattern `b/` (so a regex scan finds no earlier match start in it). -/
def noBS : List Char → Bool
  | [] => true
  | c :: rest => if c = 'b' ∧ rest.head? = some '/' then false else noBS rest

/-! ## Claim C1 -/

/-- C1: the poll cycle filters activity with the interval that was in
effect for the elapsed duration. A record qualifies iff its `occurred_at`
is within `prev_refresh_interval` seconds of the current time;
`set_refresh_interval` changes only `refresh_interval` (so a mid-cycle
call leaves the in-flight cycle's messages and drift unchanged); the new
value reaches `prev_refresh_interval` — hence the window — only through
the commit `prev_refresh_interval := refresh_interval` at the end of a
full cycle. -/
theorem C1_previous_interval_governs_window :
    (∀ (now prev : Rat) (a : ActivityRecord),
        qualifies now prev a = true ↔ now - prev ≤ a.occurred_at)
    ∧ (∀ (cfg : Config) (m : Rat),
        (set_refresh_interval cfg m).prev_refresh_interval = cfg.prev_refresh_interval
        ∧ (set_refresh_interval cfg m).channels = cfg.channels
        ∧ (set_refresh_interval cfg m).refresh_interval = m * 60)
    ∧ (∀ (cfg : Config) (m now : Rat)
        (fetch : Int → String → Option (List ActivityRecord)),
        (check_trello_activity_cycle (set_refresh_interval cfg m) now fetch).1.messages
          = (check_trello_activity_cycle cfg now fetch).1.messages
        ∧ (check_trello_activity_cycle (set_refresh_interval cfg m) now fetch).1.drift
          = (check_trello_activity_cycle cfg now fetch).1.drift)
    ∧ (∀ (cfg : Config) (now : Rat)
        (fetch : Int → String → Option (List ActivityRecord)),
        ((check_trello_activity_cycle cfg now fetch).2).prev_refresh_interval
          = cfg.refresh_interval)
    ∧ (∀ (cfg : Config) (m now : Rat)
        (fetch : Int → String → Option (List ActivityRecord)),
        ((check_trello_activity_cycle (set_refresh_interval cfg m) now fetch).2).prev_refresh_interval
          = m * 60) := by
  refine ⟨fun now prev a => ?_, fun cfg m => ⟨rfl, rfl, rfl⟩,
    fun cfg m now fetch => ⟨rfl, rfl⟩, fun cfg now fetch => rfl,
    fun cfg m now fetch => rfl⟩
  simp only [qualifies, decide_eq_true_eq]
  constructor <;> intro h <;> linarith

/-! ## Claim C2 -/

/-- A non-200 fetch for a board ends the board loop of its channel: the
failing board and every later board of the same channel are skipped. -/
theorem runBoards_fail_truncates (ch : Int) (now prev : Rat)
    (fetch : String → Option (List ActivityRecord)) (b : String × String)
    (h : fetch b.2 = none) (pre rest : List (String × String)) :
    ∀ drift : Nat,
      runBoards ch now prev fetch (pre ++ b :: rest) drift
        = runBoards ch now prev fetch pre drift := by
  induction pre with
  | nil => intro d; simp [runBoards, h]
  | cons p ps ih =>
    intro d
    simp only [List.cons_append, runBoards]
    cases hf : fetch p.2 with
    | none => rfl
    | some acts => simp [ih]

/-- C2 (amended): when the activity query for a board returns non-200, the
`break` skips that board AND all remaining boards of the same channel for
the current cycle; boards of the channel before the failing one and all
other channels are processed exactly as if the channel's board list ended
just before the failing board. There is no retry and nothing is sent to
the user for the failure. -/
theorem C2_break_skips_rest_of_channel (now prev : Rat)
    (fetch : Int → String → Option (List ActivityRecord))
    (chs1 chs2 : List (Int × List (String × String))) (ch : Int)
    (pre rest : List (String × String)) (b : String × String)
    (h : fetch ch b.2 = none) :
    ∀ drift : Nat,
      runChannels now prev fetch (chs1 ++ (ch, pre ++ b :: rest) :: chs2) drift
        = runChannels now prev fetch (chs1 ++ (ch, pre) :: chs2) drift := by
  induction chs1 with
  | nil =>
    intro d
    simp only [List.nil_append, runChannels]
    rw [runBoards_fail_truncates ch now prev (fetch ch) b h pre rest]
  | cons c cs ih =>
    intro d
    simp only [List.cons_append, runChannels, List.append_eq]
    rw [ih]

/-- Activity record used by the C2 counterexample. -/
def recC2 : ActivityRecord := ⟨"k", 9⟩

/-- A board whose activity fetch fails with a non-200 status. -/
def badBoard : String × String := ("Bad", "b/B/x")

/-- A board whose activity fetch succeeds with one qualifying action. -/
def goodBoard : String × String := ("Good", "b/G/y")

/-- Fetch oracle of the C2 counterexample: 200 with one qualifying action
for `goodBoard`, non-200 for everything else. -/
def fetchC2 : Int → String → Option (List ActivityRecord) := fun _ url =>
  if url = "b/G/y" then some [recC2] else none

/-- Registry watching `badBoard` before `goodBoard` in channel 5. -/
def cfgC2 : Config := ⟨20, 7, [(5, [badBoard, goodBoard])]⟩

/-- Same registry with the two boards in the opposite order. -/
def cfgC2r : Config := ⟨20, 7, [(5, [goodBoard, badBoard])]⟩

/-- C2 counterexample: with the failing board first, the cycle sends
nothing at all — the good board of the same channel is NOT processed —
whereas with the good board first its card is reported. So a non-200 does
not skip only the single failing board. -/
theorem C2_counterexample :
    (check_trello_activity_cycle cfgC2 10 fetchC2).1.messages = []
    ∧ (check_trello_activity_cycle cfgC2r 10 fetchC2).1.messages
        = [Msg.header 5 (10 - 7), Msg.card 5 "https://trello.com/c/k"] := by
  constructor <;> with_unfolding_all decide

/-- C2 witness: the amended theorem applied at the counterexample input. -/
theorem C2_break_skips_rest_of_channel_witness :
    runChannels 10 7 fetchC2 ([] ++ (5, [] ++ badBoard :: [goodBoard]) :: []) 0
      = runChannels 10 7 fetchC2 ([] ++ (5, []) :: []) 0 :=
  C2_break_skips_rest_of_channel 10 7 fetchC2 [] [] 5 [] [goodBoard] badBoard
    (by decide) 0

/-! ## Claim C3 -/

/-- Per-board characterization of the channel loop: the messages sent for
a channel number `(channelCounts).sum` in total, and the final
`drift_time` is the overwrite-fold of the per-board counts — each board
that sends messages REPLACES the accumulator with its own count. -/
theorem runBoards_characterization (ch : Int) (now prev : Rat)
    (fetch : String → Option (List ActivityRecord)) (bs : List (String × String)) :
    ∀ drift : Nat,
      ((runBoards ch now prev fetch bs drift).1).length
        = (channelCounts now prev fetch bs).sum
      ∧ (runBoards ch now prev fetch bs drift).2
        = overwriteFold (channelCounts now prev fetch bs) drift := by
  induction bs with
  | nil => intro d; exact ⟨rfl, rfl⟩
  | cons b rest ih =>
    intro d
    cases hf : fetch b.2 with
    | none =>
      constructor
      · simp [runBoards, hf, channelCounts]
      · simp [runBoards, hf, channelCounts, overwriteFold]
    | some acts =>
      have hcount : boardMsgCount now prev fetch b
          = if (boardCards now prev acts).isEmpty then 0
            else (boardCards now prev acts).length + 1 := by
        simp [boardMsgCount, hf]
      have hcc : channelCounts now prev fetch (b :: rest)
          = boardMsgCount now prev fetch b :: channelCounts now prev fetch rest := by
        simp [channelCounts, List.takeWhile, hf]
      by_cases hc : (boardCards now prev acts).isEmpty
      · constructor
        · simp [runBoards, hf, hcc, hcount, hc, boardMsgs, (ih _).1]
        · simp [runBoards, hf, hcc, hcount, hc, overwriteFold, boardMsgs, (ih _).2,
            overwriteFold]
      · constructor
        · simp only [runBoards, hf, hcc, hcount, if_neg hc, boardMsgs]
          simp [hc, (ih _).1]
          omega
        · simp only [runBoards, hf, hcc, hcount, if_neg hc, boardMsgs]
          simp [hc, (ih _).2, overwriteFold]

/-- Lift of `runBoards_characterization` to the whole cycle. -/
theorem runChannels_characterization (now prev : Rat)
    (fetch : Int → String → Option (List ActivityRecord))
    (chs : List (Int × List (String × String))) :
    ∀ drift : Nat,
      ((runChannels now prev fetch chs drift).1).length
        = (cycleCounts now prev fetch chs).sum
      ∧ (runChannels now prev fetch chs drift).2
        = overwriteFold (cycleCounts now prev fetch chs) drift := by
  induction chs with
  | nil => intro d; exact ⟨rfl, rfl⟩
  | cons c cs ih =>
    intro d
    have hcc : cycleCounts now prev fetch (c :: cs)
        = channelCounts now prev (fetch c.1) c.2 ++ cycleCounts now prev fetch cs := by
      simp [cycleCounts]
    constructor
    · simp [runChannels, hcc, (runBoards_characterization c.1 now prev (fetch c.1) c.2 d).1,
        (ih _).1]
    · simp only [runChannels, hcc, overwriteFold, List.foldl_append]
      rw [(ih _).2, (runBoards_characterization c.1 now prev (fetch c.1) c.2 d).2]
      rfl

/-- `(a :: l).getLast?.getD d` forgets `d` in favour of `a`. -/
theorem getLastD_cons (a : Nat) (l : List Nat) (d : Nat) :
    ((a :: l).getLast?).getD d = (l.getLast?).getD a := by
  cases l with
  | nil => rfl
  | cons b l' =>
    rw [List.getLast?_cons_cons]
    cases h : (b :: l').getLast? with
    | none => simp [List.getLast?_eq_none_iff] at h
    | some x => rfl

/-- The overwrite-fold keeps only the last non-zero entry. -/
theorem overwriteFold_eq_getLast (l : List Nat) :
    ∀ d : Nat,
      overwriteFold l d = ((l.filter (fun c => c ≠ 0)).getLast?).getD d := by
  induction l with
  | nil => intro d; rfl
  | cons c cs ih =>
    intro d
    by_cases hc : c = 0
    · subst hc
      have h1 : overwriteFold (0 :: cs) d = overwriteFold cs d := rfl
      rw [h1, ih]
      simp
    · have h1 : overwriteFold (c :: cs) d = overwriteFold cs c := by
        simp [overwriteFold, hc]
      rw [h1, ih]
      have h2 : (c :: cs).filter (fun x => x ≠ 0) = c :: cs.filter (fun x => x ≠ 0) := by
        simp [List.filter_cons, hc]
      rw [h2, getLastD_cons]

/-- C3 (amended): at the end of a poll cycle, `drift_time` equals the
message count (header plus cards) of the LAST board, in iteration order
across all channels, that sent any messages — 0 if none did — because line
99 overwrites `drift_time = len(cards) + 1` per board instead of
accumulating. The total number of messages sent in the cycle is the sum of
the per-board counts, which the final drift in general under-counts. -/
theorem C3_drift_overwritten_per_board :
    ∀ (cfg : Config) (now : Rat) (fetch : Int → String → Option (List ActivityRecord)),
      ((check_trello_activity_cycle cfg now fetch).1.messages).length
        = (cycleCounts now cfg.prev_refresh_interval fetch cfg.channels).sum
      ∧ (check_trello_activity_cycle cfg now fetch).1.drift
        = (((cycleCounts now cfg.prev_refresh_interval fetch cfg.channels).filter
              (fun c => c ≠ 0)).getLast?).getD 0 := by
  intro cfg now fetch
  constructor
  · exact (runChannels_characterization now cfg.prev_refresh_interval fetch cfg.channels 0).1
  · rw [show (check_trello_activity_cycle cfg now fetch).1.drift
        = (runChannels now cfg.prev_refresh_interval fetch cfg.channels 0).2 from rfl]
    rw [(runChannels_characterization now cfg.prev_refresh_interval fetch cfg.channels 0).2]
    exact overwriteFold_eq_getLast _ 0

/-- First board of the C3 counterexample: two distinct qualifying cards. -/
def boardA : String × String := ("A", "b/A/a")

/-- Second board of the C3 counterexample: one qualifying card. -/
def boardB : String × String := ("B", "b/B/b")

/-- Fetch oracle of the C3 counterexample. -/
def fetchC3 : Int → String → Option (List ActivityRecord) := fun _ url =>
  if url = "b/A/a" then some [⟨"x", 8⟩, ⟨"y", 9⟩]
  else if url = "b/B/b" then some [⟨"z", 9⟩] else none

/-- One channel watching both C3 boards. -/
def cfgC3 : Config := ⟨20, 7, [(1, [boardA, boardB])]⟩

/-- C3 counterexample: the cycle sends 5 messages (header + 2 cards for
the first board, header + 1 card for the second) but ends with
`drift_time = 2` — the last board's count — not the total 5, so drift is
overwritten per board rather than accumulated across the cycle. -/
theorem C3_counterexample :
    (check_trello_activity_cycle cfgC3 10 fetchC3).1.drift = 2
    ∧ ((check_trello_activity_cycle cfgC3 10 fetchC3).1.messages).length = 5
    ∧ (check_trello_activity_cycle cfgC3 10 fetchC3).1.drift
        ≠ ((check_trello_activity_cycle cfgC3 10 fetchC3).1.messages).length := by
  refine ⟨?_, ?_, ?_⟩ <;> with_unfolding_all decide

/-! ## Claim C4 -/

/-- Board of the C4 counterexample. -/
def boardC4 : String × String := ("C", "b/C/c")

/-- Fetch oracle of the C4 counterexample: five distinct qualifying
cards for every board. -/
def fetchC4 : Int → String → Option (List ActivityRecord) := fun _ _ =>
  some [⟨"p", 9⟩, ⟨"q", 9⟩, ⟨"r", 9⟩, ⟨"s", 9⟩, ⟨"t", 9⟩]

/-- Config of the C4 counterexample: a 5-second refresh interval. -/
def cfgC4 : Config := ⟨5, 7, [(1, [boardC4])]⟩

/-- C4 (amended): the scheduler computes the sleep duration as
`refresh_interval - drift_time` with NO clamping, so it is negative
whenever drift exceeds the current interval; only the external
`asyncio.sleep` collaborator, which treats a non-positive delay as an
immediate return, makes the effective suspension `max(current_interval -
drift, 0)`. -/
theorem C4_sleep_unclamped :
    ∀ (cfg : Config) (now : Rat) (fetch : Int → String → Option (List ActivityRecord)),
      (check_trello_activity_cycle cfg now fetch).1.sleep
        = cfg.refresh_interval - ((check_trello_activity_cycle cfg now fetch).1.drift : Rat)
      ∧ (cfg.refresh_interval ≤ ((check_trello_activity_cycle cfg now fetch).1.drift : Rat) →
          (check_trello_activity_cycle cfg now fetch).1.sleep ≤ 0)
      ∧ asyncio_sleep_duration ((check_trello_activity_cycle cfg now fetch).1.sleep)
          = max (cfg.refresh_interval - ((check_trello_activity_cycle cfg now fetch).1.drift : Rat)) 0 := by
  intro cfg now fetch
  refine ⟨rfl, fun h => ?_, rfl⟩
  have : (check_trello_activity_cycle cfg now fetch).1.sleep
      = cfg.refresh_interval - ((check_trello_activity_cycle cfg now fetch).1.drift : Rat) := rfl
  rw [this]
  linarith

/-- C4 witness: the amended theorem at the counterexample input, where
drift 6 exceeds the 5-second interval. -/
theorem C4_sleep_unclamped_witness :
    (check_trello_activity_cycle cfgC4 10 fetchC4).1.sleep ≤ 0 :=
  (C4_sleep_unclamped cfgC4 10 fetchC4).2.1 (by with_unfolding_all decide)

/-- C4 counterexample: with a 5-second interval and 6 messages sent, the
computed sleep duration is `-1` — negative, not the claimed
`max(current_interval - drift, 0) = 0`. -/
theorem C4_counterexample :
    (check_trello_activity_cycle cfgC4 10 fetchC4).1.drift = 6
    ∧ (check_trello_activity_cycle cfgC4 10 fetchC4).1.sleep = -1
    ∧ (check_trello_activity_cycle cfgC4 10 fetchC4).1.sleep < 0
    ∧ (check_trello_activity_cycle cfgC4 10 fetchC4).1.sleep
        ≠ max ((cfgC4.refresh_interval : Rat) - 6) 0 := by
  refine ⟨?_, ?_, ?_, ?_⟩ <;> with_unfolding_all decide

/-! ## Claim C5 -/

/-- C5 (amended): `reset_bot` empties the registry (so the all-channels
listing reports nothing) and restores `refresh_interval` to the default
3600, but it does NOT touch `prev_refresh_interval`: the effective window
value keeps whatever interval was previously committed, and only reaches
3600 after the next full poll cycle commits. -/
theorem C5_reset_bot_partial :
    ∀ (cfg : Config) (now : Rat) (fetch : Int → String → Option (List ActivityRecord)),
      (reset_bot cfg).channels = []
      ∧ list_boards_all (reset_bot cfg) = []
      ∧ (reset_bot cfg).refresh_interval = 3600
      ∧ (reset_bot cfg).prev_refresh_interval = cfg.prev_refresh_interval
      ∧ ((check_trello_activity_cycle (reset_bot cfg) now fetch).2).prev_refresh_interval
          = 3600 :=
  fun _ _ _ => ⟨rfl, rfl, rfl, rfl, rfl⟩

/-- C5 counterexample: starting from both intervals at 300 seconds,
`reset_bot` leaves `prev_refresh_interval` at 300, not at the default
3600, so the effective window value does not return to the default. -/
theorem C5_counterexample :
    (reset_bot ⟨300, 300, []⟩).prev_refresh_interval = 300
    ∧ (reset_bot ⟨300, 300, []⟩).prev_refresh_interval ≠ 3600 :=
  ⟨rfl, by with_unfolding_all decide⟩

/-! ## Claim C6 -/

/-- If some channel of the registry watches a board with the same
lowercased URL, the duplicate scan finds a channel, and the channel it
names indeed watches such a board. -/
theorem findDup_spec (chs : List (Int × List (String × String))) (url : String)
    (c : Int) (bs : List (String × String)) (b : String × String)
    (hmem : (c, bs) ∈ chs) (hb : b ∈ bs) (hlow : pyLower b.2 = pyLower url) :
    ∃ owner, findDup chs url = some owner
      ∧ ∃ bs' b', (owner, bs') ∈ chs ∧ b' ∈ bs' ∧ pyLower b'.2 = pyLower url := by
  induction chs with
  | nil => cases hmem
  | cons hd rest ih =>
    by_cases hany : hd.2.any (fun x => pyLower x.2 = pyLower url) = true
    · refine ⟨hd.1, ?_, ?_⟩
      · show findDup (hd :: rest) url = some hd.1
        rw [show (hd :: rest) = ((hd.1, hd.2) :: rest) from rfl]
        simp [findDup, hany]
      · obtain ⟨x, hx, hxeq⟩ := List.any_eq_true.mp hany
        exact ⟨hd.2, x, by simp, hx, of_decide_eq_true hxeq⟩
    · have hstep : findDup (hd :: rest) url = findDup rest url := by
        rw [show (hd :: rest) = ((hd.1, hd.2) :: rest) from rfl]
        simp [findDup, hany]
      rcases List.mem_cons.mp hmem with heq | htail
      · exfalso
        apply hany
        refine List.any_eq_true.mpr ⟨b, ?_, decide_eq_true hlow⟩
        rw [show hd.2 = bs from congrArg Prod.snd heq.symm]
        exact hb
      · obtain ⟨owner, h1, bs', b', hmem', hb', hlow'⟩ := ih htail
        exact ⟨owner, by rw [hstep]; exact h1,
          bs', b', List.mem_cons_of_mem hd hmem', hb', hlow'⟩

/-- C6: `watch_board` rejects a board whose URL, compared
case-insensitively, is already watched anywhere in the registry — in any
channel, not only the caller's: it answers `alreadyWatched owner` where
`owner` is a channel that really watches a board with the same lowercased
URL, and the registry (the whole config) is left unchanged. -/
theorem C6_duplicate_rejected_anywhere (cfg : Config) (ch : Int) (url : String)
    (lookup : String → Except String String) (c : Int) (bs : List (String × String))
    (b : String × String)
    (hparse : (extractBoardId url).isSome = true)
    (hmem : (c, bs) ∈ cfg.channels) (hb : b ∈ bs) (hlow : pyLower b.2 = pyLower url) :
    ∃ owner, watch_board cfg ch url lookup = (.alreadyWatched owner, cfg)
      ∧ ∃ bs' b', (owner, bs') ∈ cfg.channels ∧ b' ∈ bs' ∧ pyLower b'.2 = pyLower url := by
  obtain ⟨owner, hfd, hw⟩ := findDup_spec cfg.channels url c bs b hmem hb hlow
  obtain ⟨board_id, hid⟩ := Option.isSome_iff_exists.mp hparse
  exact ⟨owner, by simp [watch_board, hid, hfd], hw⟩

/-- Registry of the C6 witness: channel 7 already watches a board. -/
def cfgC6 : Config := ⟨3600, 3600, [(7, [("N", "b/X/road")])]⟩

/-- Board-metadata lookup used by the C6 witness (never reached). -/
def lookupC6 : String → Except String String := fun _ => .ok "N"

/-- C6 witness: channel 9 asks to watch the same board URL in different
capitalisation; the watch is rejected naming channel 7 and nothing
changes. -/
theorem C6_duplicate_rejected_anywhere_witness :
    ∃ owner, watch_board cfgC6 9 "b/X/ROAD" lookupC6 = (.alreadyWatched owner, cfgC6)
      ∧ ∃ bs' b', (owner, bs') ∈ cfgC6.channels ∧ b' ∈ bs'
          ∧ pyLower b'.2 = pyLower "b/X/ROAD" :=
  C6_duplicate_rejected_anywhere cfgC6 9 "b/X/ROAD" lookupC6 7 [("N", "b/X/road")]
    ("N", "b/X/road") (by with_unfolding_all decide) (by simp [cfgC6]) (by simp)
    (by with_unfolding_all decide)

/-! ## Claim C7 -/

/-- Unfolding equation of `searchBoardId` on a non-empty list. -/
theorem searchBoardId_cons (c : Char) (rest : List Char) :
    searchBoardId (c :: rest)
      = if c = 'b' ∧ rest.head? = some '/' then
          match grab (rest.tail.takeWhile (fun ch => ch ≠ '\n')) with
          | some cap => some cap
          | none => searchBoardId rest
        else searchBoardId rest := rfl

/-- A character list without `/` yields no capture. -/
theorem grab_eq_none (l : List Char) (h : '/' ∉ l) : grab l = none := by
  induction l with
  | nil => rfl
  | cons c rest ih =>
    simp only [List.mem_cons, not_or] at h
    have hc : ¬ (c = '/') := fun he => h.1 he.symm
    simp [grab, ih h.2, hc]

/-- The greedy capture runs to the last `/` of the list: everything before
the final `/` is captured when nothing after it is a `/`. -/
theorem grab_append (m t : List Char) (ht : '/' ∉ t) :
    grab (m ++ '/' :: t) = some m := by
  induction m with
  | nil => simp [grab, grab_eq_none t ht]
  | cons c m' ih => simp [grab, ih]

/-- `takeWhile (· ≠ newline)` is the identity on newline-free text. -/
theorem takeWhile_no_newline (l : List Char) (h : '\n' ∉ l) :
    l.takeWhile (fun ch => ch ≠ '\n') = l := by
  induction l with
  | nil => rfl
  | cons c rest ih =>
    simp only [List.mem_cons, not_or] at h
    have hc : ¬ (c = '\n') := fun he => h.1 he.symm
    have hpc : decide (c ≠ '\n') = true := by simp [hc]
    simp only [List.takeWhile_cons, hpc, if_true, ih h.2]

/-- The regex scan skips any prefix containing no `b/`, provided the
character right after the prefix is a `b`. -/
theorem searchBoardId_skip (p l : List Char) (hp : noBS p = true) :
    searchBoardId (p ++ 'b' :: l) = searchBoardId ('b' :: l) := by
  induction p with
  | nil => rfl
  | cons c p' ih =>
    have hcond : ¬ (c = 'b' ∧ (p' ++ 'b' :: l).head? = some '/') := by
      cases p' with
      | nil => rintro ⟨-, hh⟩; simp at hh
      | cons d p'' =>
        rintro ⟨hc, hh⟩
        simp only [List.cons_append, List.head?_cons, Option.some.injEq] at hh
        have : noBS (c :: d :: p'') = false := by
          simp [noBS, hc, hh]
        rw [this] at hp
        cases hp
    have hp' : noBS p' = true := by
      by_cases hcond2 : c = 'b' ∧ p'.head? = some '/'
      · exfalso
        apply hcond
        refine ⟨hcond2.1, ?_⟩
        cases p' with
        | nil => simp at hcond2
        | cons d p'' =>
          simp only [List.head?_cons, Option.some.injEq] at hcond2
          simp [hcond2.2]
      · simpa [noBS, hcond2] using hp
    calc searchBoardId ((c :: p') ++ 'b' :: l)
        = searchBoardId (p' ++ 'b' :: l) := by
          rw [List.cons_append, searchBoardId, if_neg hcond]
      _ = searchBoardId ('b' :: l) := ih hp'

/-- At a `b/`, the greedy capture takes everything up to the last `/` of
the newline-free remainder. -/
theorem searchBoardId_found (m t : List Char) (hm : '\n' ∉ m) (ht : '/' ∉ t)
    (hn : '\n' ∉ t) :
    searchBoardId ('b' :: '/' :: (m ++ '/' :: t)) = some m := by
  have hnot : '\n' ∉ m ++ '/' :: t := by
    simp only [List.mem_append, List.mem_cons, not_or]
    exact ⟨hm, by decide, hn⟩
  rw [searchBoardId_cons, if_pos ⟨rfl, rfl⟩]
  simp only [List.tail_cons]
  rw [takeWhile_no_newline _ hnot, grab_append m t ht]

/-- C7 (amended): the extraction pattern `b/(.*)/` is greedy: the
identifier extracted from `board_url` is everything between the first `b/`
and the LAST `/` of the URL, which coincides with the single path segment
after `b/` only when no further `/` follows it. URLs on which the pattern
finds no match (no `b/` later followed by a `/`) make `watch_board`
respond with a validation failure and register nothing. -/
theorem C7_greedy_extraction :
    (∀ (cfg : Config) (ch : Int) (url : String) (lookup : String → Except String String),
        extractBoardId url = none → watch_board cfg ch url lookup = (.invalidUrl, cfg))
    ∧ (∀ p m t : List Char, noBS p = true → '\n' ∉ m → '/' ∉ t → '\n' ∉ t →
        searchBoardId (p ++ 'b' :: '/' :: (m ++ '/' :: t)) = some m) := by
  constructor
  · intro cfg ch url lookup h
    simp [watch_board, h]
  · intro p m t hp hm ht hn
    rw [searchBoardId_skip p ('/' :: (m ++ '/' :: t)) hp]
    exact searchBoardId_found m t hm ht hn

/-- C7 witness: a URL without any `b/…/` pattern is rejected with no state
change, and on `"https://t.co/" ++ "b/" ++ "A/n" ++ "/"` the greedy scan
captures `"A/n"`, the whole text up to the last slash. -/
theorem C7_greedy_extraction_witness :
    watch_board Config.init 1 "no-board-url" lookupC6 = (.invalidUrl, Config.init)
    ∧ searchBoardId ("https://t.co/".data ++ 'b' :: '/' :: ("A/n".data ++ '/' :: []))
        = some "A/n".data :=
  ⟨C7_greedy_extraction.1 Config.init 1 "no-board-url" lookupC6
      (by with_unfolding_all decide),
   C7_greedy_extraction.2 "https://t.co/".data "A/n".data []
      (by with_unfolding_all decide) (by with_unfolding_all decide)
      (by with_unfolding_all decide) (by with_unfolding_all decide)⟩

/-- C7 counterexample: for `"https://t.co/b/A/n/"` the code extracts
`"A/n"` — the greedy capture up to the LAST slash — not the single path
segment `"A"` following `b/`. -/
theorem C7_counterexample :
    extractBoardId "https://t.co/b/A/n/" = some "A/n"
    ∧ ("A/n" : String) ≠ "A" := by
  constructor
  · with_unfolding_all decide
  · with_unfolding_all decide

/-! ## Claim C8 -/

/-- Distinct short links give distinct card URLs. -/
theorem cardUrl_inj (a b : String) (h : cardUrl a = cardUrl b) : a = b := by
  unfold cardUrl at h
  have h2 := congrArg String.data h
  simp only [String.data_append] at h2
  exact String.ext (List.append_cancel_left h2)

/-- C8: within one board's results in one cycle, qualifying activity
records are collapsed by card: the per-board card list is duplicate-free,
a card URL appears in it exactly when the board reported some qualifying
action for that card, and the board's outgoing messages contain the card's
message exactly once when the card qualifies and never otherwise — however
many qualifying actions mentioned the card. -/
theorem C8_one_message_per_card (ch : Int) (now prev : Rat)
    (acts : List ActivityRecord) (c : String) :
    (boardCards now prev acts).Nodup
    ∧ (cardUrl c ∈ boardCards now prev acts
        ↔ ∃ a ∈ acts, qualifies now prev a = true ∧ a.card_id = c)
    ∧ ((boardMsgs ch now prev acts).count (Msg.card ch (cardUrl c))
        = if ∃ a ∈ acts, qualifies now prev a = true ∧ a.card_id = c then 1 else 0) := by
  have hnodup : (boardCards now prev acts).Nodup := List.nodup_dedup _
  have hmem : cardUrl c ∈ boardCards now prev acts
      ↔ ∃ a ∈ acts, qualifies now prev a = true ∧ a.card_id = c := by
    simp only [boardCards, List.mem_dedup, List.mem_map, List.mem_filter]
    constructor
    · rintro ⟨a, ⟨ha, hq⟩, heq⟩
      exact ⟨a, ha, hq, cardUrl_inj _ _ heq⟩
    · rintro ⟨a, ha, hq, hid⟩
      exact ⟨a, ⟨ha, hq⟩, by rw [hid]⟩
  refine ⟨hnodup, hmem, ?_⟩
  by_cases hce : (boardCards now prev acts).isEmpty
  · have hmsgs : boardMsgs ch now prev acts = [] := by
      simp [boardMsgs, hce]
    have hnil : boardCards now prev acts = [] := List.isEmpty_iff.mp hce
    have hcond : ¬ ∃ a ∈ acts, qualifies now prev a = true ∧ a.card_id = c := by
      intro hex
      have := hmem.mpr hex
      rw [hnil] at this
      cases this
    rw [hmsgs, if_neg hcond]
    rfl
  · have hmsgs : boardMsgs ch now prev acts
        = Msg.header ch (now - prev)
            :: (boardCards now prev acts).map (Msg.card ch) := by
      simp [boardMsgs, hce]
    have hinj : Function.Injective (Msg.card ch) := by
      intro u v huv
      injection huv
    have hmapnd : ((boardCards now prev acts).map (Msg.card ch)).Nodup :=
      hnodup.map hinj
    rw [hmsgs, List.count_cons]
    have hne : ¬ (Msg.card ch (cardUrl c) = Msg.header ch (now - prev)) := by
      intro hx
      cases hx
    rw [List.count_eq_of_nodup hmapnd]
    have hmm : Msg.card ch (cardUrl c) ∈ (boardCards now prev acts).map (Msg.card ch)
        ↔ ∃ a ∈ acts, qualifies now prev a = true ∧ a.card_id = c := by
      rw [← hmem]
      constructor
      · intro hx
        obtain ⟨u, hu, hequ⟩ := List.mem_map.mp hx
        rw [← hinj hequ]
        exact hu
      · intro hx
        exact List.mem_map.mpr ⟨cardUrl c, hx, rfl⟩
    rw [if_congr hmm rfl rfl]
    simp [hne]

/-! ## Claim C9 -/

/-- C9: every failure path of `watch_board` — unparsable URL, duplicate
board, failed metadata lookup (whose error text is returned verbatim) —
leaves the whole bot state unchanged, and the state changes only on the
success path, where the looked-up name and the URL are inserted for the
calling channel. -/
theorem C9_failure_paths_no_state_change (cfg : Config) (ch : Int) (url : String)
    (lookup : String → Except String String) :
    (extractBoardId url = none → watch_board cfg ch url lookup = (.invalidUrl, cfg))
    ∧ (∀ board_id owner, extractBoardId url = some board_id →
        findDup cfg.channels url = some owner →
        watch_board cfg ch url lookup = (.alreadyWatched owner, cfg))
    ∧ (∀ board_id e, extractBoardId url = some board_id →
        findDup cfg.channels url = none → lookup board_id = .error e →
        watch_board cfg ch url lookup = (.lookupFailed e, cfg))
    ∧ ((watch_board cfg ch url lookup).2 ≠ cfg →
        ∃ board_id name, extractBoardId url = some board_id
          ∧ findDup cfg.channels url = none ∧ lookup board_id = .ok name
          ∧ watch_board cfg ch url lookup
              = (.added name url,
                 { cfg with channels := insertBoard cfg.channels ch (name, url) })) := by
  refine ⟨fun h => by simp [watch_board, h],
    fun bid owner h1 h2 => by simp [watch_board, h1, h2],
    fun bid e h1 h2 h3 => by simp [watch_board, h1, h2, h3],
    fun hne => ?_⟩
  cases hid : extractBoardId url with
  | none => exact absurd (by simp [watch_board, hid]) hne
  | some bid =>
    cases hfd : findDup cfg.channels url with
    | some owner => exact absurd (by simp [watch_board, hid, hfd]) hne
    | none =>
      cases hlk : lookup bid with
      | error e => exact absurd (by simp [watch_board, hid, hfd, hlk]) hne
      | ok name =>
        exact ⟨bid, name, rfl, rfl, hlk, by simp [watch_board, hid, hfd, hlk]⟩

/-- Metadata lookup that always fails, for the C9 witness. -/
def lookupErr : String → Except String String := fun _ =>
  .error "aiohttp.ClientResponseError: 404 Not Found"

/-- C9 witness: the three failure paths at concrete inputs — invalid URL,
duplicate board (named channel 7), failed lookup with its error text
returned verbatim — each leaving the state unchanged. -/
theorem C9_failure_paths_no_state_change_witness :
    watch_board Config.init 1 "no-slash" lookupErr = (.invalidUrl, Config.init)
    ∧ watch_board cfgC6 9 "b/X/road" lookupErr = (.alreadyWatched 7, cfgC6)
    ∧ watch_board Config.init 1 "b/Z/q" lookupErr
        = (.lookupFailed "aiohttp.ClientResponseError: 404 Not Found", Config.init) :=
  ⟨(C9_failure_paths_no_state_change Config.init 1 "no-slash" lookupErr).1
      (by with_unfolding_all decide),
   (C9_failure_paths_no_state_change cfgC6 9 "b/X/road" lookupErr).2.1 "X" 7
      (by with_unfolding_all decide) (by with_unfolding_all decide),
   (C9_failure_paths_no_state_change Config.init 1 "b/Z/q" lookupErr).2.2.1 "Z"
      "aiohttp.ClientResponseError: 404 Not Found"
      (by with_unfolding_all decide) rfl rfl⟩

/-! ## Claim C10 -/

/-- Members of `updateChannel chs ch bs'` either carry the new set `bs'`
or were already in `chs`. -/
theorem updateChannel_mem (chs : List (Int × List (String × String))) (ch : Int)
    (bs' : List (String × String)) (p : Int × List (String × String))
    (hp : p ∈ updateChannel chs ch bs') : p.2 = bs' ∨ p ∈ chs := by
  induction chs with
  | nil => cases hp
  | cons hd rest ih =>
    obtain ⟨c, bs⟩ := hd
    unfold updateChannel at hp
    by_cases hc : c = ch
    · rw [if_pos hc] at hp
      rcases List.mem_cons.mp hp with h1 | h2
      · left; rw [h1]
      · right; exact List.mem_cons_of_mem _ h2
    · rw [if_neg hc] at hp
      rcases List.mem_cons.mp hp with h1 | h2
      · right; rw [h1]; exact List.mem_cons_self _ _
      · rcases ih h2 with h3 | h4
        · left; exact h3
        · right; exact List.mem_cons_of_mem _ h4

/-- `insertBoard` never creates an entry with an empty watch set. -/
theorem insertBoard_nonempty (chs : List (Int × List (String × String))) (ch : Int)
    (b : String × String) (hinv : ∀ p ∈ chs, p.2 ≠ []) :
    ∀ p ∈ insertBoard chs ch b, p.2 ≠ [] := by
  intro p hp
  cases hl : lookupChannel chs ch with
  | none =>
    have hins : insertBoard chs ch b = chs ++ [(ch, [b])] := by
      simp [insertBoard, hl]
    rw [hins] at hp
    rcases List.mem_append.mp hp with h1 | h2
    · exact hinv p h1
    · have hps : p = (ch, [b]) := by simpa using h2
      rw [hps]
      simp
  | some bs =>
    by_cases hbe : bs.isEmpty
    · have hins : insertBoard chs ch b = updateChannel chs ch [b] := by
        simp [insertBoard, hl, hbe]
      rw [hins] at hp
      rcases updateChannel_mem chs ch [b] p hp with h1 | h2
      · rw [h1]; simp
      · exact hinv p h2
    · have hins : insertBoard chs ch b = updateChannel chs ch (addBoard bs b) := by
        simp [insertBoard, hl, hbe]
      rw [hins] at hp
      rcases updateChannel_mem chs ch (addBoard bs b) p hp with h1 | h2
      · rw [h1]
        unfold addBoard
        by_cases hmem : b ∈ bs
        · rw [if_pos hmem]
          exact List.ne_nil_of_mem hmem
        · rw [if_neg hmem]
          simp
      · exact hinv p h2

/-- `watch_board` preserves the registry invariant: failures change
nothing, and a successful insertion stores a non-empty set. -/
theorem watch_board_preserves_invariant (cfg : Config) (ch : Int) (url : String)
    (lookup : String → Except String String) (hinv : registryInvariant cfg) :
    registryInvariant (watch_board cfg ch url lookup).2 := by
  cases hid : extractBoardId url with
  | none => simpa [watch_board, hid] using hinv
  | some bid =>
    cases hfd : findDup cfg.channels url with
    | some owner => simpa [watch_board, hid, hfd] using hinv
    | none =>
      cases hlk : lookup bid with
      | error e => simpa [watch_board, hid, hfd, hlk] using hinv
      | ok name =>
        intro p hp
        have hch : (watch_board cfg ch url lookup).2.channels
            = insertBoard cfg.channels ch (name, url) := by
          simp [watch_board, hid, hfd, hlk]
        rw [hch] at hp
        exact insertBoard_nonempty cfg.channels ch (name, url) hinv p hp

/-- C10: the registry invariant — a channel key exists only with a
non-empty watch set — holds in every state reachable from the start-up
state through the command handlers and poll cycles: `watch_board` creates
an entry only together with its first board, `reset_bot` clears the whole
mapping, and no reachable state maps a channel to an empty set. -/
theorem C10_registry_invariant :
    (∀ cfg : Config, Reachable cfg → registryInvariant cfg)
    ∧ (∀ cfg : Config, (reset_bot cfg).channels = [])
    ∧ (∀ (cfg : Config) (ch : Int) (url : String)
        (lookup : String → Except String String),
        registryInvariant cfg → registryInvariant (watch_board cfg ch url lookup).2) := by
  refine ⟨?_, fun cfg => rfl,
    fun cfg ch url lookup h => watch_board_preserves_invariant cfg ch url lookup h⟩
  intro cfg h
  induction h with
  | init => intro p hp; cases hp
  | watch cfg' ch url lookup hr ih =>
    exact watch_board_preserves_invariant cfg' ch url lookup ih
  | reset cfg' hr ih => intro p hp; cases hp
  | setInterval cfg' m hr ih => exact ih
  | cycle cfg' now fetch hr ih => exact ih

/-- Metadata lookup that succeeds, for the C10 witness. -/
def lookupOk : String → Except String String := fun _ => .ok "Roadmap"

/-- C10 witness: the invariant at the reachable state obtained by watching
one board from the start-up state. -/
theorem C10_registry_invariant_witness :
    registryInvariant (watch_board Config.init 1 "b/R/map" lookupOk).2 :=
  C10_registry_invariant.1 (watch_board Config.init 1 "b/R/map" lookupOk).2
    (Reachable.watch Config.init 1 "b/R/map" lookupOk Reachable.init)
